import Mathlib

/-!
Verification development for the RaceSpace telemetry-analysis service.

The repository ships an HTTP service whose core pipeline extracts track
points from uploaded CSV/JSON telemetry, smooths them, scans the rows for
driving-mistake heuristics, and assembles a report.  The source file
contains two near-duplicate copies of this pipeline (two server versions
concatenated in `src/unnamed/part_001`).  Where the copies differ, the
specification designates the guarded second copy as authoritative for the
Extractor/Smoother/Problem Detector, while only the first copy has the
synthetic-narrative Report Assembler; both are embedded below, the second
copy under the plain source names (`smoothTrackPoints`, `findProblemAreas`,
`getNorm`) and the first copy with a `1` suffix.

Numbers are modelled as rationals.  JavaScript values read out of a parsed
telemetry row are modelled by `JSVal`: a number, `null` (an empty cell after
Papa's dynamic typing), or `undefined` (an absent key or an unresolved
column).  JS arithmetic on these values is embedded by `JSVal.toNum`
(ToNumber, with `none` standing for NaN), and comparison operators on a NaN
operand are false, exactly as in JS.  Decimal string formatting
(`toFixed`, `padStart`) is elided: the underlying numeric values are kept.
-/

attribute [local semireducible] Rat.add Rat.sub Rat.mul Rat.inv

/-- A JavaScript value held in a telemetry row cell: a (rational) number,
`null`, or `undefined`. -/
inductive JSVal where
  | num (q : ℚ)
  | null
  | undefined
deriving DecidableEq, Repr

/-- JS `ToNumber` on a row cell: numbers map to themselves, `null` to `0`,
`undefined` to NaN (modelled as `none`). -/
def JSVal.toNum : JSVal → Option ℚ
  | .num q => some q
  | .null => some 0
  | .undefined => none

/-- JS `v || 0`, as used for the `allX`/`allY` position column extraction:
`null`/`undefined` (and `0` itself) become `0`, other numbers survive. -/
def JSVal.orZero : JSVal → ℚ
  | .num q => q
  | .null => 0
  | .undefined => 0

/-- Whether the value is an actual number, i.e. passes the JS `v != null`
test used by the extractor's coordinate filters. -/
def JSVal.isNum : JSVal → Bool
  | .num _ => true
  | _ => false

/-- Numeric payload of a `JSVal` (only used after an `isNum` filter). -/
def JSVal.toQ : JSVal → ℚ
  | .num q => q
  | _ => 0

/-- JS `v > c` for a row cell `v` against a numeric literal `c`:
false when `v` is NaN after coercion. -/
def jsGt (v : JSVal) (c : ℚ) : Bool :=
  match v.toNum with
  | some x => decide (c < x)
  | none => false

/-- JS `v < c` for a row cell `v` against a numeric literal `c`. -/
def jsLt (v : JSVal) (c : ℚ) : Bool :=
  match v.toNum with
  | some x => decide (x < c)
  | none => false

/-- JS subtraction of two row cells (`prev[speed] - curr[speed]`);
`none` is a NaN result. -/
def jsSub (a b : JSVal) : Option ℚ :=
  match a.toNum, b.toNum with
  | some x, some y => some (x - y)
  | _, _ => none

/-- JS `v > c` where `v` is an already-computed number-or-NaN. -/
def jsGtQ (v : Option ℚ) (c : ℚ) : Bool :=
  match v with
  | some x => decide (c < x)
  | none => false

/-- Outcome of the Column Resolver: which of the six detector fields found a
matching header.  The source re-resolves this per component with the same
keyword matching; we carry one resolution outcome per parsed input. -/
structure Cols where
  speed : Bool
  throttle : Bool
  brake : Bool
  gear : Bool
  posX : Bool
  posY : Bool
deriving DecidableEq, Repr

/-- The resolution outcome in which no field matched any header. -/
def Cols.unresolved : Cols := ⟨false, false, false, false, false, false⟩

/-- One telemetry row, seen through the resolved columns: the cell value
under each resolved column role (the source's `curr[columns.speed]` etc.).
A cell is `undefined` when the row lacks the key. -/
structure Row where
  speed : JSVal
  throttle : JSVal
  brake : JSVal
  gear : JSVal
  posX : JSVal
  posY : JSVal
deriving DecidableEq, Repr

/-- The all-`undefined` row (also the out-of-range default for `getD`;
every access that uses it is guarded by an index bound). -/
def defRow : Row := ⟨.undefined, .undefined, .undefined, .undefined, .undefined, .undefined⟩

/-- JS `row[columns.f]`: if the column did not resolve, `columns.f` is
`undefined` and the access yields `undefined`; otherwise the row's cell. -/
def getF (has : Bool) (v : JSVal) : JSVal :=
  if has then v else .undefined

/-- One point of the nested `{telemetry: [...]}` JSON format: the values of
`point.position?.x` / `point.position?.z` (`undefined` when `position` is
absent). -/
structure TelemPoint where
  px : JSVal
  pz : JSVal
deriving DecidableEq, Repr

/-- A detected problem: `position` components are number-or-NaN (`none` is
NaN), matching the JS normalization output; `timeLost` keeps the numeric
value whose `toFixed` rendering the second copy attaches (the first copy
emits no `timeLost`, modelled as `none`). -/
structure Problem where
  position : Option ℚ × Option ℚ
  description : String
  severity : String
  timeLost : Option ℚ
deriving DecidableEq, Repr

/-- `Math.min(...l)` for the nonempty lists the detector builds. -/
def listMin : List ℚ → ℚ
  | [] => 0
  | [a] => a
  | a :: b :: t => min a (listMin (b :: t))

/-- `Math.max(...l)` for the nonempty lists the detector builds. -/
def listMax : List ℚ → ℚ
  | [] => 0
  | [a] => a
  | a :: b :: t => max a (listMax (b :: t))

/-- Normalization of the second (guarded) detector copy:
`max > min ? ((value - min) / (max - min)) * 100 : 50`.
A NaN `value` propagates to a NaN result (`none`). -/
def getNorm (value : JSVal) (allVals : List ℚ) : Option ℚ :=
  if listMin allVals < listMax allVals then
    value.toNum.map fun v =>
      (v - listMin allVals) / (listMax allVals - listMin allVals) * 100
  else some 50

/-- Normalization of the first detector copy, which lacks the guard:
`((value - min) / (max - min)) * 100`.  When `max = min` the JS division by
zero yields NaN or ±Infinity, i.e. never a finite number: `none`. -/
def getNorm1 (value : JSVal) (allVals : List ℚ) : Option ℚ :=
  if listMin allVals < listMax allVals then
    value.toNum.map fun v =>
      (v - listMin allVals) / (listMax allVals - listMin allVals) * 100
  else none

/-- The `allX` list the detector normalizes against. -/
def allXs (cols : Cols) (rows : List Row) : List ℚ :=
  rows.map fun r => (getF cols.posX r.posX).orZero

/-- The `allY` list the detector normalizes against. -/
def allYs (cols : Cols) (rows : List Row) : List ℚ :=
  rows.map fun r => (getF cols.posY r.posY).orZero

/-- Indices inspected by the detector loop:
`for (i = 1; i < n - 1; i++) { if (i % 10 !== 0) continue; ... }`. -/
def evalIdx (n : ℕ) : List ℕ :=
  (List.range n).filter fun i =>
    decide (0 < i) && decide (i + 1 < n) && (i % 10 == 0)

/-- Problems the second detector copy pushes at one evaluated index. -/
def problemsAtIdx (cols : Cols) (rows : List Row) (allX allY : List ℚ)
    (i : ℕ) : List Problem :=
  let prev := rows.getD (i - 1) defRow
  let curr := rows.getD i defRow
  let speedDrop := jsSub (getF cols.speed prev.speed) (getF cols.speed curr.speed)
  let brake := getF cols.brake curr.brake
  let throttle := getF cols.throttle curr.throttle
  let gear := getF cols.gear curr.gear
  let position : Option ℚ × Option ℚ :=
    (getNorm (getF cols.posX curr.posX) allX, getNorm (getF cols.posY curr.posY) allY)
  (if jsGt brake (8/10) && jsGtQ speedDrop 20 then
    [{ position := position, description := "Harsh braking detected",
       severity := "high", timeLost := speedDrop.map fun d => d * (5/100) }]
   else []) ++
  (if jsGt brake (2/10) && jsGt throttle (5/10) then
    [{ position := position, description := "Overlapping throttle and brake",
       severity := "medium", timeLost := some (2/10) }]
   else []) ++
  (if cols.gear && jsGt (getF cols.speed curr.speed) 200 && jsLt gear 5 then
    [{ position := position, description := "Late upshift detected",
       severity := "low", timeLost := some (1/10) }]
   else [])

/-- Problem Detector, second (authoritative) copy.  `allX`/`allY` collect
`p[columns.posX] || 0` over the whole sequence before the loop. -/
def findProblemAreas (cols : Cols) (rows : List Row) : List Problem :=
  if rows.isEmpty then []
  else
    (evalIdx rows.length).flatMap
      (problemsAtIdx cols rows (allXs cols rows) (allYs cols rows))

/-- Problems the first detector copy pushes at one evaluated index: same
checks, but unguarded normalization, no `columns.gear &&` guard on the late
upshift check, and no `timeLost` fields. -/
def problemsAtIdx1 (cols : Cols) (rows : List Row) (allX allY : List ℚ)
    (i : ℕ) : List Problem :=
  let prev := rows.getD (i - 1) defRow
  let curr := rows.getD i defRow
  let speedDrop := jsSub (getF cols.speed prev.speed) (getF cols.speed curr.speed)
  let brake := getF cols.brake curr.brake
  let throttle := getF cols.throttle curr.throttle
  let gear := getF cols.gear curr.gear
  let position : Option ℚ × Option ℚ :=
    (getNorm1 (getF cols.posX curr.posX) allX, getNorm1 (getF cols.posY curr.posY) allY)
  (if jsGt brake (8/10) && jsGtQ speedDrop 20 then
    [{ position := position, description := "Harsh braking detected",
       severity := "high", timeLost := none }]
   else []) ++
  (if jsGt brake (2/10) && jsGt throttle (5/10) then
    [{ position := position, description := "Overlapping throttle and brake",
       severity := "medium", timeLost := none }]
   else []) ++
  (if jsGt (getF cols.speed curr.speed) 200 && jsLt gear 5 then
    [{ position := position, description := "Late upshift detected",
       severity := "low", timeLost := none }]
   else [])

/-- Problem Detector, first copy (it also resolves `sector`/`time` columns,
which no check reads; they are omitted). -/
def findProblemAreas1 (cols : Cols) (rows : List Row) : List Problem :=
  if rows.isEmpty then []
  else
    (evalIdx rows.length).flatMap
      (problemsAtIdx1 cols rows (allXs cols rows) (allYs cols rows))

/-- Smoother, second copy: for each index the window is
`points.slice(max(0, i - W), min(n, i + W + 1))` (JS `slice` clamps, and
natural subtraction is the `max(0, ·)`). -/
def smoothTrackPoints (points : List (ℚ × ℚ)) (windowSize : ℕ) : List (ℚ × ℚ) :=
  if points.length < windowSize then points
  else
    (List.range points.length).map fun i =>
      let window := (points.take (i + windowSize + 1)).drop (i - windowSize)
      ((window.map Prod.fst).sum / window.length,
       (window.map Prod.snd).sum / window.length)

/-- Smoother, first copy: the inner loop runs
`for (j = max(0, i - W); j < min(n, i + W); j++)`, an exclusive upper bound
one smaller than the second copy's. -/
def smoothTrackPoints1 (points : List (ℚ × ℚ)) (windowSize : ℕ) : List (ℚ × ℚ) :=
  if points.length < windowSize then points
  else
    (List.range points.length).map fun i =>
      let window := (points.take (i + windowSize)).drop (i - windowSize)
      ((window.map Prod.fst).sum / window.length,
       (window.map Prod.snd).sum / window.length)

/-- Pre-smoothing CSV extraction once posX/posZ resolved: sample stride
`max(1, floor(N/200))`, keep every stride-th row, map to coordinate pairs,
drop pairs with a `null`/absent coordinate (`point[0] != null && point[1]
!= null`); the final `filterMap` fuses that filter with the numeric
injection. -/
def sampleTrackPoints (rows : List Row) : List (ℚ × ℚ) :=
  let sampleRate := max 1 (rows.length / 200)
  (((rows.enum.filter fun p => p.1 % sampleRate == 0).map
      fun p => (p.2.posX, p.2.posY)).filterMap
    fun q =>
      match q.1, q.2 with
      | JSVal.num a, JSVal.num b => some (a, b)
      | _, _ => none)

/-- Outcome of parsing the raw upload, abstracting `Papa.parse` /
`JSON.parse`: a CSV table (with its column-resolution outcome), a JSON
top-level array of point objects (their `x`/`z` keys are the `posX`/`posY`
fields), a JSON object with a `telemetry` array of nested points, or any
other successfully parsed JSON with no recognizable point structure.
`Except.error` is a parse exception with its message. -/
inductive Parsed where
  | pcsv (cols : Cols) (rows : List Row)
  | pjarr (cols : Cols) (rows : List Row)
  | pjtelem (pts : List TelemPoint)
  | pjother
deriving DecidableEq

/-- The `dataPoints` handed from the Extractor to the Problem Detector,
together with the detector's own column resolution on them.  Nested
telemetry points expose no key the detector's keyword lists match, so that
branch resolves nothing. -/
inductive DataPoints where
  | dpRows (cols : Cols) (rs : List Row)
  | dpTelem (pts : List TelemPoint)
deriving DecidableEq

/-- Extraction result: `valid` is `{valid: true, trackPoints, dataPoints}`,
`invalid` is `{valid: false, reason}`. -/
inductive ExtractResult where
  | valid (trackPoints : List (ℚ × ℚ)) (dataPoints : DataPoints)
  | invalid (reason : String)
deriving DecidableEq

/-- Track-Point Extractor (first copy; the second differs only in invoking
its smoother unconditionally and in which smoother copy it calls).  CSV
rows only produce points when nonempty and both position columns resolved;
JSON arrays and nested telemetry filter out entries missing a coordinate,
with no downsampling; any other parsed JSON leaves both outputs empty but
still returns `valid`.  A parse exception returns `{valid: false, reason}`. -/
def extractTrackPointsFromTelemetry : Except String Parsed → ExtractResult
  | .error msg => .invalid ("Error extracting track data: " ++ msg)
  | .ok p =>
    let tpdp : List (ℚ × ℚ) × DataPoints :=
      match p with
      | .pcsv cols rows =>
          if !rows.isEmpty && cols.posX && cols.posY then
            (sampleTrackPoints rows, .dpRows cols rows)
          else ([], .dpRows cols [])
      | .pjarr cols rows =>
          ((rows.filter fun r => r.posX.isNum && r.posY.isNum).map
            (fun r => (r.posX.toQ, r.posY.toQ)), .dpRows cols rows)
      | .pjtelem pts =>
          ((pts.filter fun q => q.px.isNum && q.pz.isNum).map
            (fun q => (q.px.toQ, q.pz.toQ)), .dpTelem pts)
      | .pjother => ([], .dpRows Cols.unresolved [])
    let tp := if tpdp.1.length > 0 then smoothTrackPoints1 tpdp.1 5 else tpdp.1
    .valid tp tpdp.2

/-- The detector call `findProblemAreas(dataPoints, format)` made by the
first copy's assembler (nested telemetry points resolve no columns, so that
branch runs the detector with nothing resolved and all cells undefined). -/
def detectProblems1 : DataPoints → List Problem
  | .dpRows cols rs => findProblemAreas1 cols rs
  | .dpTelem pts => findProblemAreas1 Cols.unresolved (pts.map fun _ => defRow)

/-- The `telemetryHash` accumulator: decimal renderings of
`charCodeAt(i)` for `i = 0, 100, 200, ...` below `min(length, 1000)`,
concatenated into one string. -/
def telemetryHash (bytes : List ℕ) : String :=
  ((bytes.enum.filter fun p => p.1 % 100 == 0 && decide (p.1 < 1000)).map
    fun p => Nat.repr p.2).foldl (· ++ ·) ""

/-- The deterministic seed: the sum of the character codes of the hash
string (`reduce((a, b) => a + b.charCodeAt(0), 0)`). -/
def seedOf (bytes : List ℕ) : ℕ :=
  ((telemetryHash bytes).toList.map Char.toNat).sum

/-- The assembler's `getRandom(min, max)`: one fixed fraction
`x - floor(x)` of `x = sin(seed + problems.length) * 10000`, scaled into
`[min, max)`.  `f` stands for the runtime's fixed `Math.sin` on the natural
arguments that occur. -/
def getRandom (f : ℕ → ℚ) (seed nprob : ℕ) (lo hi : ℚ) : ℚ :=
  let x := f (seed + nprob) * 10000
  lo + (x - (Rat.floor x : ℚ)) * (hi - lo)

/-- Track argument, as far as the assembler inspects it:
`track.includes('Nürburgring')` and `track.includes('Spa')`. -/
structure Track where
  nurb : Bool
  spa : Bool
deriving DecidableEq

/-- One synthetic sector mistake (numeric payloads of the generated
Polish-language strings). -/
structure SynthMistake where
  bm : ℤ
  lateFlag : Bool
  corner : ℕ
  fromM : ℤ
  force : ℤ
  timeLost : ℚ
deriving DecidableEq

/-- One synthetic sector. -/
structure SynthSector where
  number : ℕ
  time : ℚ
  mistakes : List SynthMistake
deriving DecidableEq

/-- Synthetic entry/exit speeds for one turn. -/
structure SynthTurn where
  entrySpeed : ℤ
  exitSpeed : ℤ
deriving DecidableEq

/-- One synthetic recommendation line (its randomized numeric slots). -/
inductive Recommendation where
  | incSpeed (turn : ℤ)
  | holdGas (pct : ℤ) (eauRouge : Bool)
  | brakePoint (turn : ℤ)
  | optLine (turn : ℤ)
  | avoidOverlap (turn : ℤ)
deriving DecidableEq

/-- The synthetic report produced by the first copy's fallback path. -/
structure SyntheticReport where
  lapMin : ℤ
  lapSec : ℤ
  lapMs : ℤ
  topSpeed : ℤ
  throttleUsage : ℤ
  speedAnalysis : List (ℕ × SynthTurn)
  brakingPoints : List (ℕ × ℤ × Bool)
  trackLine : List (ℚ × ℚ)
  errors : List Problem
  sectors : List SynthSector
  recommendations : List Recommendation
deriving DecidableEq

/-- The default 11-point track line used when fewer than 11 points were
extracted. -/
def defaultTrackLine : List (ℚ × ℚ) :=
  [(0, 0), (10, 5), (20, 10), (30, 15), (40, 20), (50, 25), (60, 30),
   (70, 35), (80, 40), (90, 45), (100, 50)]

/-- The three default error markers used when no problem was detected;
their descriptions embed randomized turn numbers. -/
def defaultErrors (f : ℕ → ℚ) (seed nprob : ℕ) : List Problem :=
  [{ position := (some 30, some 15),
     description := "Hamowanie 20m za późno (Turn " ++
       toString (Rat.floor (1 + getRandom f seed nprob 0 3)) ++ ")",
     severity := "high", timeLost := none },
   { position := (some 60, some 30),
     description := "Za mało gazu w wyjściu z zakrętu (Turn " ++
       toString (Rat.floor (4 + getRandom f seed nprob 0 3)) ++ ")",
     severity := "medium", timeLost := none },
   { position := (some 90, some 45),
     description := "Niewłaściwa linia jazdy (Turn " ++
       toString (Rat.floor (7 + getRandom f seed nprob 0 3)) ++ ")",
     severity := "low", timeLost := none }]

/-- The synthetic analysis of the first copy's fallback path, a pure
function of the seed, the locally computed points and problems, and the
track flags. -/
def syntheticReport (f : ℕ → ℚ) (seed : ℕ) (trackPoints : List (ℚ × ℚ))
    (problems : List Problem) (track : Track) : SyntheticReport :=
  let nprob := problems.length
  let rnd := fun (lo hi : ℚ) => getRandom f seed nprob lo hi
  let sectorCount : ℕ := if track.nurb then 4 else if track.spa then 3 else 2
  let sectors := (List.range sectorCount).map fun i0 =>
    let i := i0 + 1
    let mistakeCount := (Rat.floor (rnd 0 3)).toNat
    { number := i, time := 20 + rnd 0 15,
      mistakes := (List.range mistakeCount).map fun j =>
        { bm := Rat.floor (5 + rnd 0 20),
          lateFlag := decide (rnd 0 1 > 1/2),
          corner := i * 2 + j,
          fromM := Rat.floor (80 + rnd 0 50),
          force := Rat.floor (70 + rnd 0 20),
          timeLost := 1/10 + rnd 0 (1/2) } : SynthSector }
  let turnCount : ℕ := if track.nurb then 16 else if track.spa then 19 else 10
  { lapMin := Rat.floor (1 + rnd 0 2),
    lapSec := Rat.floor (30 + rnd 0 30),
    lapMs := Rat.floor (rnd 0 999),
    topSpeed := Rat.floor (240 + rnd 0 50),
    throttleUsage := Rat.floor (70 + rnd 0 20),
    speedAnalysis := (List.range turnCount).map fun i0 =>
      (i0 + 1, { entrySpeed := Rat.floor (120 + rnd 0 80),
                 exitSpeed := Rat.floor (140 + rnd 0 70) }),
    brakingPoints := (List.range turnCount).map fun i0 =>
      (i0 + 1, Rat.floor (80 + rnd 0 50), decide (rnd 0 1 > 7/10)),
    trackLine := if trackPoints.length > 10 then trackPoints else defaultTrackLine,
    errors := if problems.length > 0 then problems else defaultErrors f seed nprob,
    sectors := sectors,
    recommendations :=
      ([Recommendation.incSpeed (Rat.floor (1 + rnd 0 turnCount)),
        Recommendation.holdGas (Rat.floor (70 + rnd 0 20)) track.spa,
        Recommendation.brakePoint (Rat.floor (1 + rnd 0 turnCount)),
        Recommendation.optLine (Rat.floor (1 + rnd 0 turnCount)),
        Recommendation.avoidOverlap (Rat.floor (1 + rnd 0 turnCount))]).take
        (3 + (Rat.floor (rnd 0 2)).toNat) }

/-- The parsed reply of a successful, parseable AI call, as far as the
assembler manipulates it. -/
structure AIReport where
  trackLine : List (ℚ × ℚ)
  errors : List Problem
  rest : String
deriving DecidableEq

/-- How the optional AI-collaborator call turns out: no API key configured,
the `fetch` promise rejecting (network error or the 30 s timeout), a
non-success HTTP response, a success response whose content is not valid
JSON, or a parsed JSON reply. -/
inductive AIBehavior where
  | noKey
  | throwErr (msg : String)
  | notOk
  | okUnparseable
  | okParsed (rep : AIReport)
deriving DecidableEq

/-- The assembler's merge of a parsed AI reply with the local results:
local track points override when more than 10, local problems when
nonempty. -/
def mergeAI (rep : AIReport) (tp : List (ℚ × ℚ)) (problems : List Problem) :
    AIReport :=
  { rep with
    trackLine := if tp.length > 10 then tp else rep.trackLine,
    errors := if problems.length > 0 then problems else rep.errors }

/-- The `data` payload of a `{valid: true}` analysis result. -/
inductive ReportData where
  | ai (r : AIReport)
  | synth (s : SyntheticReport)
deriving DecidableEq

/-- Overall analysis outcome: `{valid: true, data}` or
`{valid: false, reason}`. -/
inductive AnalyzeResult where
  | ok (data : ReportData)
  | err (reason : String)
deriving DecidableEq

/-- The raw upload: its character codes (for the checksum) and its parse
outcome (the deterministic result of `Papa.parse`/`JSON.parse` on those
bytes, under the format chosen by the brace sniff on the first 20
characters). -/
structure Input where
  bytes : List ℕ
  parse : Except String Parsed

/-- Report Assembler, first copy.  Extraction failure is returned as-is.
Otherwise the detector and the checksum run, and then: a parsed AI reply is
merged and returned; a missing key, non-success response or unparseable
reply falls through to the synthetic narrative; a rejected `fetch` throws
into the outer catch, which returns `{valid: false, reason: 'Błąd analizy:
...'}`.  `track`/`carClass`/`game` feed only the AI prompt except for the
`track.includes` flags. -/
def analyzeTelemetryWithAI (f : ℕ → ℚ) (ai : AIBehavior) (inp : Input)
    (track : Track) : AnalyzeResult :=
  match extractTrackPointsFromTelemetry inp.parse with
  | .invalid reason => .err reason
  | .valid tp dp =>
    let problems := detectProblems1 dp
    let seed := seedOf inp.bytes
    match ai with
    | .okParsed rep => .ok (.ai (mergeAI rep tp problems))
    | .throwErr msg => .err ("Błąd analizy: " ++ msg)
    | _ => .ok (.synth (syntheticReport f seed tp problems track))

/-- Whether a row passes the extractor's coordinate filter (both position
cells are numbers). -/
def isNumPair (r : Row) : Bool := r.posX.isNum && r.posY.isNum

/-- Specification-side count for C1: the number of indices `i` in `[0, N)`
with `i mod max(1, floor(N/200)) = 0` whose row has both coordinates. -/
def sampledCount (rows : List Row) : ℕ :=
  ((List.range rows.length).filter fun i =>
    (i % max 1 (rows.length / 200) == 0) && isNumPair (rows.getD i defRow)).length

/-- Specification-side harsh-braking condition at row `i`:
`brake(curr) > 0.8` and `speed(prev) - speed(curr) > 20`. -/
def harshCond (cols : Cols) (rows : List Row) (i : ℕ) : Bool :=
  jsGt (getF cols.brake (rows.getD i defRow).brake) (8/10) &&
  jsGtQ (jsSub (getF cols.speed (rows.getD (i - 1) defRow).speed)
               (getF cols.speed (rows.getD i defRow).speed)) 20

/-- Specification-side harsh-braking problem for row `i`: severity `high`,
the fixed description, and the row's normalized position. -/
def harshProblemAt (cols : Cols) (rows : List Row) (i : ℕ) : Problem :=
  { position :=
      (getNorm (getF cols.posX (rows.getD i defRow).posX) (allXs cols rows),
       getNorm (getF cols.posY (rows.getD i defRow).posY) (allYs cols rows)),
    description := "Harsh braking detected", severity := "high",
    timeLost := (jsSub (getF cols.speed (rows.getD (i - 1) defRow).speed)
                       (getF cols.speed (rows.getD i defRow).speed)).map
      fun d => d * (5/100) }

/-- Specification-side smoothing window for C3: the input points at indices
in `[max(0, i - W), min(n, i + W + 1))`. -/
def windowSpec (pts : List (ℚ × ℚ)) (w i : ℕ) : List (ℚ × ℚ) :=
  ((List.range pts.length).filter fun j =>
    decide (i - w ≤ j) && decide (j < i + w + 1)).map fun j => pts.getD j (0, 0)

/-- Arithmetic mean of the x's and of the z's of a point list. -/
def meanPoint (l : List (ℚ × ℚ)) : ℚ × ℚ :=
  ((l.map Prod.fst).sum / l.length, (l.map Prod.snd).sum / l.length)

/-- Column resolution in which every field matched. -/
def colsAll : Cols := ⟨true, true, true, true, true, true⟩

/-- Twelve rows with a harsh-braking event at row 10 (speed drops from 250
to 220 with brake 0.9) and distinct positions. -/
def rowsHB : List Row := (List.range 12).map fun i =>
  { speed := .num (if i = 10 then 220 else 250), throttle := .num 0,
    brake := .num (if i = 10 then 9/10 else 0), gear := .num 5,
    posX := .num i, posY := .num (2 * i) }

/-- Twelve rows with the same harsh-braking event but constant position
columns (a degenerate flat axis). -/
def rowsFlat : List Row := (List.range 12).map fun i =>
  { speed := .num (if i = 10 then 220 else 250), throttle := .num 0,
    brake := .num (if i = 10 then 9/10 else 0), gear := .num 5,
    posX := .num 3, posY := .num 4 }

/-- Eleven rows (the harsh-braking data cut short of the first evaluated
index). -/
def rows11 : List Row := rowsHB.take 11

/-- 399 identical rows with numeric coordinates. -/
def rows399 : List Row :=
  List.replicate 399
    { speed := JSVal.num 0, throttle := .num 0, brake := .num 0,
      gear := .num 0, posX := .num 1, posY := .num 1 }

/-- Three concrete points (shorter than the window). -/
def pts3 : List (ℚ × ℚ) := [(1, 1), (2, 2), (3, 3)]

/-- Seven concrete points with distinct coordinates. -/
def pts7 : List (ℚ × ℚ) := [(0, 0), (1, 1), (2, 2), (3, 3), (4, 4), (5, 5), (6, 6)]

/-- A concrete stand-in for the runtime's `Math.sin`. -/
def f0 : ℕ → ℚ := fun _ => 0

/-- A track that is neither the Nürburgring nor Spa. -/
def tr0 : Track := ⟨false, false⟩

/-- A concrete upload whose JSON parses but has no recognizable point
structure (its text starts with the byte of a brace, so it sniffs as JSON). -/
def inpOther : Input := ⟨[123], .ok .pjother⟩

/-- A two-character upload. -/
def inpA : Input := ⟨[65, 66], .ok .pjother⟩

/-- A two-character upload differing from `inpA` only at index 1, which the
checksum never samples. -/
def inpB : Input := ⟨[65, 67], .ok .pjother⟩

/-- A concrete upload whose parse raises an exception. -/
def inpErr : Input := ⟨[97], .error "bad JSON"⟩

theorem evalIdx_eq_nil {n : ℕ} (h : n < 12) : evalIdx n = [] := by
  apply List.filter_eq_nil_iff.mpr
  intro i hi
  simp only [List.mem_range] at hi
  simp only [Bool.and_eq_true, decide_eq_true_eq, beq_iff_eq, not_and]
  omega

/-- C10: with fewer than 12 rows no index is evaluated (the smallest
candidate, 10, needs `10 + 1 < n`), so both detector copies return the
empty problem list and never fail. -/
theorem findProblemAreas_short_input (cols : Cols) (rows : List Row)
    (h : rows.length < 12) :
    findProblemAreas cols rows = [] ∧ findProblemAreas1 cols rows = [] := by
  have he : evalIdx rows.length = [] := evalIdx_eq_nil h
  constructor
  · unfold findProblemAreas
    split
    · rfl
    · simp [he]
  · unfold findProblemAreas1
    split
    · rfl
    · simp [he]

/-- Witness for C10 at the eleven-row input. -/
theorem findProblemAreas_short_input_witness :
    findProblemAreas colsAll rows11 = [] ∧ findProblemAreas1 colsAll rows11 = [] :=
  findProblemAreas_short_input colsAll rows11 (by decide)

set_option maxRecDepth 10000 in
/-- C9: the two pipeline copies are not extensionally equal: on seven
distinct points the two smoothers disagree (their windows differ), and on
twelve rows with a flat position column the two detectors disagree (only
the second copy's normalization guards the zero range and yields 50). -/
theorem duplicate_copies_differ :
    smoothTrackPoints1 pts7 5 ≠ smoothTrackPoints pts7 5 ∧
    findProblemAreas1 colsAll rowsFlat ≠ findProblemAreas colsAll rowsFlat ∧
    getNorm1 (JSVal.num 7) [7, 7] = none ∧ getNorm (JSVal.num 7) [7, 7] = some 50 :=
  ⟨by decide, by decide, by decide, by decide⟩

theorem filter_ite_keep {α : Type} (p : α → Bool) (c : Bool) (a : α)
    (h : p a = true) :
    (if c then [a] else []).filter p = if c then [a] else [] := by
  cases c <;> simp [h]

theorem filter_ite_drop {α : Type} (p : α → Bool) (c : Bool) (a : α)
    (h : p a = false) :
    (if c then [a] else []).filter p = [] := by
  cases c <;> simp [h]

/-- C5: a missing gear column disables only the late-upshift check: the
detector run without a gear column equals the run with one, minus the
late-upshift problems, and it emits no late-upshift problem.  The harsh
braking and overlap problems (and their positions) are untouched, and the
detector never fails. -/
theorem missing_gear_disables_only_late (cols : Cols) (rows : List Row) :
    findProblemAreas { cols with gear := false } rows =
      (findProblemAreas { cols with gear := true } rows).filter
        (fun p => !(p.description == "Late upshift detected")) ∧
    ∀ p ∈ findProblemAreas { cols with gear := false } rows,
      p.description ≠ "Late upshift detected" := by
  have key : ∀ i,
      (problemsAtIdx { cols with gear := true } rows
        (allXs { cols with gear := true } rows)
        (allYs { cols with gear := true } rows) i).filter
          (fun p => !(p.description == "Late upshift detected")) =
      problemsAtIdx { cols with gear := false } rows
        (allXs { cols with gear := false } rows)
        (allYs { cols with gear := false } rows) i := by
    intro i
    simp only [problemsAtIdx, List.filter_append]
    rw [filter_ite_keep _ _ _ rfl, filter_ite_keep _ _ _ rfl,
      filter_ite_drop _ _ _ rfl]
    simp [allXs, allYs]
  have main : findProblemAreas { cols with gear := false } rows =
      (findProblemAreas { cols with gear := true } rows).filter
        (fun p => !(p.description == "Late upshift detected")) := by
    unfold findProblemAreas
    by_cases he : rows.isEmpty
    · simp [he]
    · rw [if_neg he, if_neg he, List.filter_flatMap]
      simp only [key]
  refine ⟨main, ?_⟩
  intro p hp
  rw [main] at hp
  have h2 := (List.mem_filter.mp hp).2
  simpa using h2

theorem flatMap_ite_singleton {α β : Type} (l : List α) (c : α → Bool)
    (g : α → β) :
    (l.flatMap fun a => if c a then [g a] else []) = (l.filter c).map g := by
  induction l with
  | nil => rfl
  | cons a t ih => by_cases h : c a <;> simp [h, ih]

/-- C4: the harsh-braking problems the detector emits are exactly one
problem of severity `high` with description `Harsh braking detected` and
the current row's normalized position for each evaluated index (a multiple
of 10 in `[1, n - 2]`) at which `brake(curr) > 0.8` and `speed(prev) -
speed(curr) > 20`, and none at any other index. -/
theorem harsh_braking_characterization (cols : Cols) (rows : List Row) :
    (findProblemAreas cols rows).filter
        (fun p => p.description == "Harsh braking detected") =
      ((evalIdx rows.length).filter (harshCond cols rows)).map
        (harshProblemAt cols rows) := by
  have key : ∀ i,
      (problemsAtIdx cols rows (allXs cols rows) (allYs cols rows) i).filter
          (fun p => p.description == "Harsh braking detected") =
      if harshCond cols rows i then [harshProblemAt cols rows i] else [] := by
    intro i
    simp only [problemsAtIdx, List.filter_append]
    rw [filter_ite_keep _ _ _ rfl, filter_ite_drop _ _ _ rfl,
      filter_ite_drop _ _ _ rfl]
    simp [harshCond, harshProblemAt]
  by_cases he : rows.isEmpty
  · have h0 : rows = [] := List.isEmpty_iff.mp he
    subst h0
    rfl
  · unfold findProblemAreas
    rw [if_neg he, List.filter_flatMap]
    simp only [key]
    rw [flatMap_ite_singleton]

theorem listMin_le (l : List ℚ) : ∀ x ∈ l, listMin l ≤ x := by
  induction l with
  | nil => intro x h; cases h
  | cons a t ih =>
    intro x h
    cases t with
    | nil =>
      rcases List.mem_cons.mp h with h1 | h2
      · subst h1; exact le_of_eq rfl
      · cases h2
    | cons b t2 =>
      rcases List.mem_cons.mp h with h1 | h2
      · subst h1; exact min_le_left _ _
      · exact le_trans (min_le_right _ _) (ih x h2)

theorem le_listMax (l : List ℚ) : ∀ x ∈ l, x ≤ listMax l := by
  induction l with
  | nil => intro x h; cases h
  | cons a t ih =>
    intro x h
    cases t with
    | nil =>
      rcases List.mem_cons.mp h with h1 | h2
      · subst h1; exact le_of_eq rfl
      · cases h2
    | cons b t2 =>
      rcases List.mem_cons.mp h with h1 | h2
      · subst h1; exact le_max_left _ _
      · exact le_trans (ih x h2) (le_max_right _ _)

theorem listMin_of_const (c : ℚ) : ∀ (a : ℚ) (t : List ℚ),
    (∀ x ∈ a :: t, x = c) → listMin (a :: t) = c := by
  intro a t
  induction t generalizing a with
  | nil => intro h; exact h a (by simp)
  | cons b t2 ih =>
    intro h
    have ha : a = c := h a (by simp)
    have hrest : listMin (b :: t2) = c := ih b fun x hx => h x (by simp [List.mem_cons.mp hx])
    show min a (listMin (b :: t2)) = c
    rw [ha, hrest, min_self]

theorem listMax_of_const (c : ℚ) : ∀ (a : ℚ) (t : List ℚ),
    (∀ x ∈ a :: t, x = c) → listMax (a :: t) = c := by
  intro a t
  induction t generalizing a with
  | nil => intro h; exact h a (by simp)
  | cons b t2 ih =>
    intro h
    have ha : a = c := h a (by simp)
    have hrest : listMax (b :: t2) = c := ih b fun x hx => h x (by simp [List.mem_cons.mp hx])
    show max a (listMax (b :: t2)) = c
    rw [ha, hrest, max_self]

theorem toNum_eq_orZero {v : JSVal} (hv : v ≠ JSVal.undefined) :
    v.toNum = some v.orZero := by
  cases v with
  | num q => rfl
  | null => rfl
  | undefined => exact absurd rfl hv

theorem getNorm_flat {v : JSVal} {l : List ℚ} {c : ℚ} (h : ∀ x ∈ l, x = c) :
    getNorm v l = some 50 := by
  unfold getNorm
  rw [if_neg]
  cases l with
  | nil => simp [listMin, listMax]
  | cons a t =>
    rw [listMin_of_const c a t h, listMax_of_const c a t h]
    exact lt_irrefl c

theorem getNorm_mem_Icc {v : JSVal} {l : List ℚ} (hv : v ≠ JSVal.undefined)
    (hm : v.orZero ∈ l) :
    ∃ q, getNorm v l = some q ∧ 0 ≤ q ∧ q ≤ 100 := by
  unfold getNorm
  by_cases hlt : listMin l < listMax l
  · rw [if_pos hlt, toNum_eq_orZero hv]
    have h1 : listMin l ≤ v.orZero := listMin_le l _ hm
    have h2 : v.orZero ≤ listMax l := le_listMax l _ hm
    have h3 : 0 < listMax l - listMin l := by linarith
    refine ⟨_, rfl, ?_, ?_⟩
    · have := div_nonneg (by linarith : (0:ℚ) ≤ v.orZero - listMin l) (le_of_lt h3)
      exact mul_nonneg this (by norm_num)
    · have hle1 : (v.orZero - listMin l) / (listMax l - listMin l) ≤ 1 := by
        rw [div_le_one h3]; linarith
      calc (v.orZero - listMin l) / (listMax l - listMin l) * 100
          ≤ 1 * 100 := mul_le_mul_of_nonneg_right hle1 (by norm_num)
        _ = 100 := by norm_num
  · rw [if_neg hlt]
    exact ⟨50, rfl, by norm_num, by norm_num⟩

theorem mem_ite_singleton {α : Type} {p a : α} {c : Bool}
    (h : p ∈ if c then [a] else []) : p = a := by
  cases c
  · simp at h
  · simpa using h

theorem getNorm_component (hasCol : Bool) (sel : Row → JSVal) (rows : List Row)
    (i : ℕ) (hlen : i < rows.length)
    (hdef : hasCol = true → ∀ r ∈ rows, sel r ≠ JSVal.undefined) :
    ∃ q, getNorm (getF hasCol (sel (rows.getD i defRow)))
        (rows.map fun r => (getF hasCol (sel r)).orZero) = some q ∧
      0 ≤ q ∧ q ≤ 100 := by
  cases hcol : hasCol
  · refine ⟨50, ?_, by norm_num, by norm_num⟩
    apply getNorm_flat (c := 0)
    intro x hx
    rcases List.mem_map.mp hx with ⟨r, _, hxe⟩
    rw [← hxe]
    rfl
  · have hcur : rows.getD i defRow ∈ rows := by
      rw [List.getD_eq_getElem rows defRow hlen]
      exact List.getElem_mem hlen
    have hv : getF true (sel (rows.getD i defRow)) ≠ JSVal.undefined :=
      hdef hcol _ hcur
    have hm : (getF true (sel (rows.getD i defRow))).orZero ∈
        rows.map fun r => (getF true (sel r)).orZero :=
      List.mem_map_of_mem _ hcur
    exact getNorm_mem_Icc hv hm

/-- C2: every problem the detector emits carries a position whose two
components are finite numbers in `[0, 100]`, normalized against the min and
max of the position columns over the whole sequence (the hypotheses say the
rows conform to the numeric-or-null telemetry-row data model on any
resolved position column); and on a flat axis — every column value equal —
the normalization returns exactly 50 rather than dividing by zero. -/
theorem problem_positions_normalized (cols : Cols) (rows : List Row)
    (hX : cols.posX = true → ∀ r ∈ rows, r.posX ≠ JSVal.undefined)
    (hY : cols.posY = true → ∀ r ∈ rows, r.posY ≠ JSVal.undefined) :
    (∀ p ∈ findProblemAreas cols rows,
      (∃ x, p.position.1 = some x ∧ 0 ≤ x ∧ x ≤ 100) ∧
      (∃ y, p.position.2 = some y ∧ 0 ≤ y ∧ y ≤ 100)) ∧
    (∀ (v : JSVal) (c : ℚ) (k : ℕ),
      getNorm v (List.replicate (k + 1) c) = some 50) := by
  constructor
  · intro p hp
    unfold findProblemAreas at hp
    by_cases he : rows.isEmpty
    · rw [if_pos he] at hp
      cases hp
    · rw [if_neg he] at hp
      rcases List.mem_flatMap.mp hp with ⟨i, hi, hpi⟩
      have hilen : i < rows.length :=
        List.mem_range.mp (List.mem_filter.mp hi).1
      have hpos : p.position =
          (getNorm (getF cols.posX ((rows.getD i defRow).posX)) (allXs cols rows),
           getNorm (getF cols.posY ((rows.getD i defRow).posY)) (allYs cols rows)) := by
        simp only [problemsAtIdx] at hpi
        rcases List.mem_append.mp hpi with h12 | h3
        · rcases List.mem_append.mp h12 with h1 | h2
          · rw [mem_ite_singleton h1]
          · rw [mem_ite_singleton h2]
        · rw [mem_ite_singleton h3]
      rw [hpos]
      exact ⟨getNorm_component cols.posX Row.posX rows i hilen hX,
             getNorm_component cols.posY Row.posY rows i hilen hY⟩
  · intro v c k
    exact getNorm_flat fun x hx => List.eq_of_mem_replicate hx

/-- Witness for C2 at the twelve-row harsh-braking input with all columns
resolved. -/
theorem problem_positions_normalized_witness :
    (∀ p ∈ findProblemAreas colsAll rowsHB,
      (∃ x, p.position.1 = some x ∧ 0 ≤ x ∧ x ≤ 100) ∧
      (∃ y, p.position.2 = some y ∧ 0 ≤ y ∧ y ≤ 100)) ∧
    (∀ (v : JSVal) (c : ℚ) (k : ℕ),
      getNorm v (List.replicate (k + 1) c) = some 50) :=
  problem_positions_normalized colsAll rowsHB (by decide) (by decide)

theorem length_smoothTrackPoints (pts : List (ℚ × ℚ)) (w : ℕ) :
    (smoothTrackPoints pts w).length = pts.length := by
  unfold smoothTrackPoints
  split
  · rfl
  · rw [List.length_map, List.length_range]

theorem length_smoothTrackPoints1 (pts : List (ℚ × ℚ)) (w : ℕ) :
    (smoothTrackPoints1 pts w).length = pts.length := by
  unfold smoothTrackPoints1
  split
  · rfl
  · rw [List.length_map, List.length_range]

theorem filter_range_interval (a b n : ℕ) :
    ((List.range n).filter fun j => decide (a ≤ j) && decide (j < b)) =
    List.range' a (min n b - a) := by
  induction n with
  | zero => simp
  | succ n ih =>
    rw [List.range_succ, List.filter_append, ih]
    by_cases hab : a ≤ n ∧ n < b
    · have hmin : min (n + 1) b - a = (min n b - a) + 1 := by omega
      have hend : a + 1 * (min n b - a) = n := by omega
      rw [hmin, List.range'_concat, hend]
      simp [hab.1, hab.2]
    · have hmin : min (n + 1) b - a = min n b - a := by omega
      rw [hmin]
      have : ¬(a ≤ n ∧ n < b) := hab
      simp only [List.filter_cons, List.filter_nil]
      split
      · rename_i hcond
        simp only [Bool.and_eq_true, decide_eq_true_eq] at hcond
        exact absurd hcond this
      · simp

theorem slice_eq_windowSpec (pts : List (ℚ × ℚ)) (w i : ℕ) :
    (pts.take (i + w + 1)).drop (i - w) = windowSpec pts w i := by
  unfold windowSpec
  rw [filter_range_interval]
  apply List.ext_getElem
  · simp [List.length_range']
    omega
  · intro k h1 h2
    have hb : i - w + k < pts.length := by
      simp [List.length_drop, List.length_take] at h1
      omega
    rw [List.getElem_drop, List.getElem_take, List.getElem_map, List.getElem_range']
    rw [List.getD_eq_getElem _ _ (show i - w + 1 * k < pts.length by simpa using hb)]
    simp only [one_mul]

/-- C3: on an input of length at least the window half-width the Smoother
preserves the length, and each output point is the arithmetic mean of the
input points at indices in `[max(0, i - W), min(n, i + W + 1))`; an input
shorter than the half-width is returned unchanged. -/
theorem smoother_window_mean (pts : List (ℚ × ℚ)) (w : ℕ) :
    (pts.length < w → smoothTrackPoints pts w = pts) ∧
    (w ≤ pts.length →
      (smoothTrackPoints pts w).length = pts.length ∧
      ∀ i < pts.length,
        (smoothTrackPoints pts w).getD i (0, 0) = meanPoint (windowSpec pts w i)) := by
  constructor
  · intro h
    unfold smoothTrackPoints
    rw [if_pos h]
  · intro h
    refine ⟨length_smoothTrackPoints pts w, ?_⟩
    intro i hi
    unfold smoothTrackPoints
    rw [if_neg (by omega)]
    rw [List.getD_eq_getElem _ _ (by simpa using hi :
      i < ((List.range pts.length).map _).length)]
    rw [List.getElem_map, List.getElem_range]
    simp only [meanPoint]
    rw [slice_eq_windowSpec]

/-- Witness for C3: the short branch on three points, and the window-mean
branch on seven points, evaluated at index 0. -/
theorem smoother_window_mean_witness :
    smoothTrackPoints pts3 5 = pts3 ∧
    (smoothTrackPoints pts7 5).length = pts7.length ∧
    (smoothTrackPoints pts7 5).getD 0 (0, 0) = meanPoint (windowSpec pts7 5 0) :=
  ⟨(smoother_window_mean pts3 5).1 (by decide),
   ((smoother_window_mean pts7 5).2 (by decide)).1,
   ((smoother_window_mean pts7 5).2 (by decide)).2 0 (by decide)⟩

theorem countP_ext {α : Type} (p q : α → Bool) (l : List α)
    (h : ∀ a, p a = q a) : l.countP p = l.countP q := by
  induction l with
  | nil => rfl
  | cons a t ih => rw [List.countP_cons, List.countP_cons, h a, ih]

theorem enum_eq_range_map {α : Type} (l : List α) (d : α) :
    l.enum = (List.range l.length).map fun i => (i, l.getD i d) := by
  apply List.ext_getElem
  · simp
  · intro k h1 h2
    rw [List.getElem_enum, List.getElem_map, List.getElem_range]
    rw [List.getD_eq_getElem _ _ (by simpa using h1)]

theorem length_filterMap_eq_countP {α β : Type} (f : α → Option β) (l : List α) :
    (l.filterMap f).length = l.countP fun a => (f a).isSome := by
  induction l with
  | nil => rfl
  | cons a t ih =>
    rw [List.filterMap_cons, List.countP_cons]
    cases hf : f a <;> simp [hf, ih]

theorem count_multiples (s : ℕ) (hs : 0 < s) (n : ℕ) :
    ((List.range n).filter fun i => i % s == 0).length = (n + s - 1) / s := by
  induction n with
  | zero => simp [Nat.div_eq_of_lt (by omega : s - 1 < s)]
  | succ n ih =>
    rw [List.range_succ, List.filter_append, List.length_append, ih]
    have key : (n + 1 + s - 1) / s = (n + s - 1) / s + if n % s = 0 then 1 else 0 := by
      have h1 : n + 1 + s - 1 = (n + s - 1) + 1 := by omega
      rw [h1, Nat.succ_div]
      congr 1
      have hiff : s ∣ n + s - 1 + 1 ↔ n % s = 0 := by
        rw [show n + s - 1 + 1 = n + s by omega]
        rw [Nat.dvd_add_self_right]
        exact Nat.dvd_iff_mod_eq_zero
      simp [hiff]
    rw [key]
    by_cases hmod : n % s = 0
    · simp [List.filter_cons, hmod]
    · simp [List.filter_cons, hmod]

theorem sample_length_eq (rows : List Row) :
    (sampleTrackPoints rows).length = sampledCount rows := by
  unfold sampleTrackPoints sampledCount
  rw [length_filterMap_eq_countP, List.countP_map, List.countP_filter]
  rw [enum_eq_range_map rows defRow, List.countP_map]
  rw [← List.countP_eq_length_filter]
  apply countP_ext
  intro i
  simp only [Function.comp_apply]
  rw [Bool.and_comm]
  congr 1
  generalize rows.getD i defRow = r
  obtain ⟨s1, t1, b1, g1, px, py⟩ := r
  cases px <;> cases py <;> rfl

theorem sampledCount_le (rows : List Row) : sampledCount rows ≤ 399 := by
  have hs0 : 0 < max 1 (rows.length / 200) := le_max_left 1 _
  have hcount : sampledCount rows ≤
      (rows.length + max 1 (rows.length / 200) - 1) / max 1 (rows.length / 200) := by
    unfold sampledCount
    rw [← List.countP_eq_length_filter]
    calc (List.range rows.length).countP
          (fun i => (i % max 1 (rows.length / 200) == 0) && isNumPair (rows.getD i defRow))
        ≤ (List.range rows.length).countP (fun i => i % max 1 (rows.length / 200) == 0) := by
          apply List.countP_mono_left
          intro x _ h
          rw [Bool.and_eq_true] at h
          exact h.1
      _ = ((List.range rows.length).filter
            fun i => i % max 1 (rows.length / 200) == 0).length :=
          List.countP_eq_length_filter _ _
      _ = (rows.length + max 1 (rows.length / 200) - 1) / max 1 (rows.length / 200) :=
          count_multiples _ hs0 _
  by_cases h4 : rows.length ≤ 399
  · have hle : sampledCount rows ≤ rows.length := by
      unfold sampledCount
      calc ((List.range rows.length).filter _).length
          = (List.range rows.length).countP _ := (List.countP_eq_length_filter _ _).symm
        _ ≤ (List.range rows.length).length := List.countP_le_length _
        _ = rows.length := List.length_range _
    omega
  · have hlt : (rows.length + max 1 (rows.length / 200) - 1) /
        max 1 (rows.length / 200) < 301 := by
      rw [Nat.div_lt_iff_lt_mul hs0]
      omega
    omega

/-- C1 (amended): the pre-smoothing CSV point count equals the number of
indices `i` in `[0, N)` with `i mod max(1, floor(N/200)) = 0` whose row has
both coordinates non-null; smoothing preserves that count; and the
resulting TrackPoint sequence length is bounded by 399 — not by ≈200,
since for N just below 400 the stride is still 1. -/
theorem extraction_sample_count (rows : List Row) :
    (sampleTrackPoints rows).length = sampledCount rows ∧
    (sampleTrackPoints rows).length ≤ 399 ∧
    (smoothTrackPoints1 (sampleTrackPoints rows) 5).length =
      (sampleTrackPoints rows).length ∧
    ∀ (cols : Cols) (tp : List (ℚ × ℚ)) (dp : DataPoints),
      extractTrackPointsFromTelemetry (.ok (.pcsv cols rows)) = .valid tp dp →
      tp.length ≤ 399 := by
  have h1 := sample_length_eq rows
  have h2 : (sampleTrackPoints rows).length ≤ 399 := by
    rw [h1]; exact sampledCount_le rows
  refine ⟨h1, h2, length_smoothTrackPoints1 _ _, ?_⟩
  intro cols tp dp hext
  simp only [extractTrackPointsFromTelemetry] at hext
  by_cases hg : (!rows.isEmpty && cols.posX && cols.posY) = true
  · rw [if_pos hg] at hext
    by_cases hlen : (sampleTrackPoints rows).length > 0
    · rw [if_pos hlen] at hext
      injection hext with htp hdp
      rw [← htp, length_smoothTrackPoints1]
      exact h2
    · rw [if_neg hlen] at hext
      injection hext with htp hdp
      rw [← htp]
      exact h2
  · rw [if_neg hg] at hext
    simp only [List.length_nil, gt_iff_lt, lt_irrefl, if_false] at hext
    injection hext with htp hdp
    rw [← htp]
    simp

set_option maxRecDepth 100000 in
/-- C1 counterexample: 399 all-numeric rows have stride
`max(1, floor(399/200)) = 1`, so all 399 rows survive sampling and the
TrackPoint sequence has 399 points — far above the claimed ≈200 bound. -/
theorem extraction_bound_counterexample :
    (sampleTrackPoints rows399).length = 399 ∧
    (smoothTrackPoints1 (sampleTrackPoints rows399) 5).length = 399 ∧
    ¬ (sampleTrackPoints rows399).length ≤ 200 := by
  have h : (sampleTrackPoints rows399).length = 399 := by decide
  refine ⟨h, ?_, by rw [h]; decide⟩
  rw [length_smoothTrackPoints1, h]

/-- Witness for C1 (amended) at the twelve-row input with resolved
columns. -/
theorem extraction_sample_count_witness :
    (smoothTrackPoints1 (sampleTrackPoints rowsHB) 5).length ≤ 399 ∧
    (sampleTrackPoints rowsHB).length = sampledCount rowsHB :=
  ⟨(extraction_sample_count rowsHB).2.2.2 colsAll
      (smoothTrackPoints1 (sampleTrackPoints rowsHB) 5) (.dpRows colsAll rowsHB)
      (by decide),
   (extraction_sample_count rowsHB).1⟩

/-- C6 (amended): a parse exception makes extraction return
`{valid: false, reason}` and the analysis propagates exactly that failure
as its terminal result with no partial report; but JSON that parses with no
recognizable point structure does not fail: extraction returns
`{valid: true}` with empty trackPoints and dataPoints. -/
theorem parse_failure_propagates (f : ℕ → ℚ) (ai : AIBehavior) (track : Track)
    (inp : Input) (msg : String) :
    (inp.parse = .error msg →
      extractTrackPointsFromTelemetry inp.parse =
        .invalid ("Error extracting track data: " ++ msg) ∧
      analyzeTelemetryWithAI f ai inp track =
        .err ("Error extracting track data: " ++ msg)) ∧
    (inp.parse = .ok .pjother →
      extractTrackPointsFromTelemetry inp.parse =
        .valid [] (.dpRows Cols.unresolved [])) := by
  constructor
  · intro h
    constructor
    · rw [h]
      rfl
    · unfold analyzeTelemetryWithAI
      rw [h]
      rfl
  · intro h
    rw [h]
    rfl

/-- C6 counterexample: a JSON upload that parses but exposes no point
structure (e.g. `{}`) is not rejected: extraction answers `{valid: true}`
with empty outputs and the whole analysis completes with a `{valid: true}`
synthetic report, not the claimed terminal `{valid: false}`. -/
theorem json_no_structure_not_invalid :
    extractTrackPointsFromTelemetry inpOther.parse =
      .valid [] (.dpRows Cols.unresolved []) ∧
    analyzeTelemetryWithAI f0 .noKey inpOther tr0 =
      .ok (.synth (syntheticReport f0 (seedOf inpOther.bytes) [] [] tr0)) :=
  ⟨rfl, rfl⟩

/-- Witness for C6 (amended), at a concrete failing parse and a concrete
structureless JSON parse. -/
theorem parse_failure_propagates_witness :
    analyzeTelemetryWithAI f0 .noKey inpErr tr0 =
      .err ("Error extracting track data: " ++ "bad JSON") ∧
    extractTrackPointsFromTelemetry inpOther.parse =
      .valid [] (.dpRows Cols.unresolved []) :=
  ⟨((parse_failure_propagates f0 .noKey tr0 inpErr "bad JSON").1 rfl).2,
   (parse_failure_propagates f0 .noKey tr0 inpOther "x").2 rfl⟩

/-- C7 (amended): when extraction succeeds and the AI call completes
unusably (missing key, non-success response, or unparseable reply), the
analysis falls through to the synthetic narrative and returns
`{valid: true}` built from the locally computed track points and problems;
but when the fetch itself rejects (network error or the timeout), the
exception reaches the outer catch and the analysis returns
`{valid: false, reason}`. -/
theorem ai_failure_fallback (f : ℕ → ℚ) (inp : Input) (track : Track)
    (tp : List (ℚ × ℚ)) (dp : DataPoints)
    (hx : extractTrackPointsFromTelemetry inp.parse = .valid tp dp) :
    (∀ ai, (ai = AIBehavior.noKey ∨ ai = .notOk ∨ ai = .okUnparseable) →
      analyzeTelemetryWithAI f ai inp track =
        .ok (.synth (syntheticReport f (seedOf inp.bytes) tp
          (detectProblems1 dp) track))) ∧
    (∀ msg, analyzeTelemetryWithAI f (.throwErr msg) inp track =
      .err ("Błąd analizy: " ++ msg)) := by
  constructor
  · intro ai hai
    unfold analyzeTelemetryWithAI
    rw [hx]
    rcases hai with h | h | h <;> subst h <;> rfl
  · intro msg
    unfold analyzeTelemetryWithAI
    rw [hx]

/-- C7 counterexample: on an input whose extraction succeeds, a rejected
fetch (network error / timeout) does not degrade to the synthetic path —
the analysis fails with `{valid: false}`. -/
theorem ai_throw_fails_request :
    extractTrackPointsFromTelemetry inpOther.parse =
      .valid [] (.dpRows Cols.unresolved []) ∧
    analyzeTelemetryWithAI f0 (.throwErr "request timeout") inpOther tr0 =
      .err ("Błąd analizy: " ++ "request timeout") :=
  ⟨rfl, rfl⟩

/-- Witness for C7 (amended) at a concrete input, for a non-success
response and for a rejected fetch. -/
theorem ai_failure_fallback_witness :
    analyzeTelemetryWithAI f0 .notOk inpOther tr0 =
      .ok (.synth (syntheticReport f0 (seedOf inpOther.bytes) []
        (detectProblems1 (.dpRows Cols.unresolved [])) tr0)) ∧
    analyzeTelemetryWithAI f0 (.throwErr "timeout") inpOther tr0 =
      .err ("Błąd analizy: " ++ "timeout") :=
  ⟨(ai_failure_fallback f0 inpOther tr0 [] (.dpRows Cols.unresolved []) rfl).1
      .notOk (Or.inr (Or.inl rfl)),
   (ai_failure_fallback f0 inpOther tr0 [] (.dpRows Cols.unresolved []) rfl).2
      "timeout"⟩

/-- C8: the synthetic path is deterministic: running the analysis twice on
equal inputs with the AI collaborator unavailable gives equal reports; and
the synthetic output depends on the raw bytes only through the sampled
character checksum — inputs with equal checksum and equal parse produce
identical synthetic lap time, top speed, sectors, speed analysis, braking
points and recommendations. -/
theorem synthetic_deterministic (f : ℕ → ℚ) (inp1 inp2 : Input) (track : Track) :
    (inp1 = inp2 →
      analyzeTelemetryWithAI f .noKey inp1 track =
        analyzeTelemetryWithAI f .noKey inp2 track) ∧
    (seedOf inp1.bytes = seedOf inp2.bytes → inp1.parse = inp2.parse →
      analyzeTelemetryWithAI f .noKey inp1 track =
        analyzeTelemetryWithAI f .noKey inp2 track) := by
  constructor
  · intro h
    rw [h]
  · intro hseed hparse
    unfold analyzeTelemetryWithAI
    rw [hseed, hparse]

/-- Witness for C8: two byte-distinct uploads with equal checksums and
equal parses yield identical analysis results. -/
theorem synthetic_deterministic_witness :
    seedOf inpA.bytes = seedOf inpB.bytes ∧
    analyzeTelemetryWithAI f0 .noKey inpA tr0 =
      analyzeTelemetryWithAI f0 .noKey inpB tr0 :=
  ⟨by decide, (synthetic_deterministic f0 inpA inpB tr0).2 (by decide) rfl⟩
